import Mathlib

/-!
Verification development for the PDF Form Semantics Engine
(backend/services/form_filler.py and backend/services/form_handler.py).

The Python modules are shallowly embedded as executable Lean definitions.
Python dictionaries keyed by strings are modelled as ordered association
lists (Python dicts preserve insertion order); Python values that may be a
bool or a string (the caller-supplied field values) are modelled by the
PyValue inductive; code that may raise is modelled with Option / Except or,
where the source catches every exception locally, by total functions whose
branch structure mirrors the try/except structure of the source.

Floating point rectangle coordinates are modelled as integers: no claim
depends on their arithmetic, only on their presence and propagation.
The font/appearance machinery (ChineseFontManager, canvas drawing in
_update_appearance_with_chinese) has no effect on the writer state in the
source (the rendered packet is built and discarded); it is therefore not
modelled.  The /DA font-name parsing of _parse_field is likewise omitted:
no claim mentions fontName/fontSize.
-/

/-- Form type tags of the source enum FormType. -/
inductive FormType where
  | none
  | acroform
  | xfaStatic
  | xfaDynamic
  | hybrid
deriving DecidableEq, Repr

/-- Field type tags of the source enum FieldType. -/
inductive FieldType where
  | text
  | checkbox
  | radio
  | dropdown
  | listbox
  | signature
  | button
  | unknown
deriving DecidableEq, Repr

/-- Save mode tags of the source enum SaveMode. -/
inductive SaveMode where
  | incremental
  | fullRewrite
deriving DecidableEq, Repr

/-- Caller-supplied field value: the Python code treats it as Any but only
distinguishes bool and str. -/
inductive PyValue where
  | bool (b : Bool)
  | str (s : String)
deriving DecidableEq, Repr

/-- Permission dictionary produced by _check_permissions; the source builds
a dict with exactly these four keys, in this order. -/
structure Permissions where
  can_modify : Bool
  can_fill_forms : Bool
  can_extract : Bool
  can_print : Bool
deriving DecidableEq, Repr

/-- Default all-true permission set, matching the initial dict of
_check_permissions. -/
def defaultPermissions : Permissions :=
  { can_modify := true, can_fill_forms := true, can_extract := true, can_print := true }

/-- Encryption-related state of a loaded reader, as seen by
_check_permissions: whether reader.is_encrypted holds, and the /P entry of
the trailer /Encrypt dictionary.  The outer Option is the presence of
/Encrypt in the trailer; the inner Option is some p when /P is present and
int(p) succeeds, and none when /P is missing or malformed (the int()
failure is swallowed by the bare except of the source, leaving the
defaults). -/
structure ReaderCrypt where
  isEncrypted : Bool
  encryptP : Option (Option Int)
deriving DecidableEq, Repr

/-- Embedding of PDFFormFiller._check_permissions. -/
def checkPermissions (r : ReaderCrypt) : Permissions :=
  if r.isEncrypted then
    match r.encryptP with
    | some (some p) =>
      { can_print := Int.land p 4 != 0
        can_modify := Int.land p 8 != 0
        can_extract := Int.land p 16 != 0
        can_fill_forms := Int.land p 256 != 0 }
    | _ => defaultPermissions
  else defaultPermissions

/-- Parent chain of a field or widget dictionary as read by
_get_field_name: the own /T entry, and the /Parent entry when present
(leaf means the /Parent key is absent). -/
inductive FieldNode where
  | leaf (t : Option String)
  | node (t : Option String) (parent : FieldNode)
deriving DecidableEq, Repr

/-- Own /T entry of a field or widget dictionary. -/
def FieldNode.ownT : FieldNode → Option String
  | .leaf t => t
  | .node t _ => t

/-- Embedding of PDFFormFiller._get_field_name.  The source first returns
str(field_data["/T"]) when /T is present; otherwise, when /Parent is
present, it resolves the parent name and then tests
(parent_name and "/T" in field_data) before joining with a dot — a test on
the same /T key already found absent. -/
def getFieldName : FieldNode → Option String
  | .leaf t =>
    match t with
    | some name => some name
    | none => none
  | .node t parent =>
    match t with
    | some name => some name
    | none =>
      match getFieldName parent, t with
      | some pn, some tn => some (pn ++ "." ++ tn)
      | _, _ => none

/-- Attributes of a field or widget dictionary relevant to
_parse_field / _get_field_type / _extract_fields / _flatten_form.
The nameNode field carries the /T and /Parent chain; apNStates carries the
keys of the /AP /N appearance sub-dictionary (the source only debug-prints
them and stores nothing of them in FormFieldInfo). -/
structure AnnotDict where
  subtype : Option String := none
  nameNode : FieldNode := FieldNode.leaf none
  ft : Option String := none
  v : Option String := none
  dv : Option String := none
  ff : Option Int := none
  maxLen : Option Int := none
  opt : Option (List String) := none
  rect : Option (Int × Int × Int × Int) := none
  apNStates : List String := []
deriving DecidableEq, Repr

/-- Extracted per-field record, mirroring the dataclass FormFieldInfo
(fontName/fontSize omitted: unused by every claim). -/
structure FormFieldInfo where
  name : String
  fieldType : FieldType
  value : Option String := none
  defaultValue : Option String := none
  options : List String := []
  rect : Option (Int × Int × Int × Int) := none
  pageIndex : Nat := 0
  flags : Int := 0
  maxLength : Option Int := none
  isReadonly : Bool := false
  isRequired : Bool := false
deriving DecidableEq, Repr

/-- Python truthiness conversion used by _parse_field:
str(value) if value else None, where an absent key and a falsy (empty)
string both produce None. -/
def truthyStr : Option String → Option String
  | none => none
  | some s => if s = "" then none else some s

/-- Embedding of PDFFormFiller._get_field_type.  Bit 15 marks a radio
group, bit 16 a pushbutton, bit 17 a combo box; 32768, 65536 and 131072
are 1 <<< 15, 1 <<< 16 and 1 <<< 17. -/
def getFieldTypeOf (fd : AnnotDict) : FieldType :=
  let ft := fd.ft.getD ""
  if ft = "/Tx" then FieldType.text
  else if ft = "/Btn" then
    let flags := fd.ff.getD 0
    if Int.land flags 32768 != 0 then FieldType.radio
    else if Int.land flags 65536 != 0 then FieldType.button
    else FieldType.checkbox
  else if ft = "/Ch" then
    let flags := fd.ff.getD 0
    if Int.land flags 131072 != 0 then FieldType.dropdown
    else FieldType.listbox
  else if ft = "/Sig" then FieldType.signature
  else FieldType.unknown

/-- Embedding of PDFFormFiller._parse_field.  Readonly and required are
bits 0 and 1 of /Ff; both stay at their dataclass defaults when /Ff is
absent. -/
def parseField (fieldName : String) (fd : AnnotDict) : FormFieldInfo :=
  { name := fieldName
    fieldType := getFieldTypeOf fd
    value := truthyStr fd.v
    defaultValue := truthyStr fd.dv
    rect := fd.rect
    flags := fd.ff.getD 0
    isReadonly := match fd.ff with
      | some f => Int.land f 1 != 0
      | none => false
    isRequired := match fd.ff with
      | some f => Int.land f 2 != 0
      | none => false
    maxLength := fd.maxLen
    options := fd.opt.getD []
    pageIndex := 0 }

/-- Lookup in an ordered association list, mirroring Python dict lookup. -/
def lookupField {α : Type} : List (String × α) → String → Option α
  | [], _ => none
  | (a, b) :: t, k => if a = k then some b else lookupField t k

/-- In-place update of an ordered association list, mirroring Python dict
assignment: replace the first binding of the key, else append. -/
def listUpdate {α : Type} : List (String × α) → String → α → List (String × α)
  | [], k, v => [(k, v)]
  | (a, b) :: t, k, v => if a = k then (a, v) :: t else (a, b) :: listUpdate t k v

/-- One page of the document: the /Annots entry is either absent or a list
of annotation dictionaries. -/
structure Page where
  annots : Option (List AnnotDict)
deriving DecidableEq, Repr

/-- Document state as seen through the codec: the document-level /AcroForm
dictionary (none when the root has no /AcroForm) together with its
codec-flattened field table as returned by reader.get_fields(), and the
page list. -/
structure DocState where
  acroForm : Option (List (String × AnnotDict))
  pages : List Page
deriving DecidableEq, Repr

/-- Widget-annotation processing step of the second pass of
_extract_fields: for an annotation of /Widget subtype, resolve its name;
a new name is inserted with the widget's page index, an existing name has
its page index overwritten and its rect backfilled only when /Rect is
present on the widget and the stored field has none. -/
def processAnnot (fields : List (String × FormFieldInfo)) (pageIdx : Nat)
    (annot : AnnotDict) : List (String × FormFieldInfo) :=
  if annot.subtype = some "/Widget" then
    match getFieldName annot.nameNode with
    | none => fields
    | some fieldName =>
      match lookupField fields fieldName with
      | none =>
        listUpdate fields fieldName { parseField fieldName annot with pageIndex := pageIdx }
      | some fi =>
        let fi2 := { fi with
          pageIndex := pageIdx
          rect := if annot.rect.isSome && fi.rect.isNone then annot.rect else fi.rect }
        listUpdate fields fieldName fi2
  else fields

/-- Second pass of _extract_fields: walk the pages in order (enumerate)
and fold every annotation of every page that has an /Annots entry. -/
def extractPass2 (fields : List (String × FormFieldInfo)) (pageIdx : Nat) :
    List Page → List (String × FormFieldInfo)
  | [] => fields
  | pg :: rest =>
    let fields2 := match pg.annots with
      | none => fields
      | some annots => annots.foldl (fun acc an => processAnnot acc pageIdx an) fields
    extractPass2 fields2 (pageIdx + 1) rest

/-- Embedding of PDFFormFiller._extract_fields: first pass over the
codec-flattened field table (reader.get_fields()), second pass over the
page annotations. -/
def extractFields (d : DocState) : List (String × FormFieldInfo) :=
  let base := match d.acroForm with
    | some tbl => tbl.foldl (fun acc p => listUpdate acc p.1 (parseField p.1 p.2)) []
    | none => []
  extractPass2 base 0 d.pages

/-- Per-page step of _flatten_form: keep only the annotations whose
/Subtype differs from /Widget; when the filtered list is empty the /Annots
key is deleted, otherwise it is replaced by the filtered list.  A page
with no /Annots entry is untouched. -/
def flattenPage (pg : Page) : Page :=
  match pg.annots with
  | none => pg
  | some annots =>
    let newAnnots := annots.filter (fun a => a.subtype != some "/Widget")
    if newAnnots.isEmpty then { annots := none }
    else { annots := some newAnnots }

/-- Embedding of PDFFormFiller._flatten_form: delete the document-level
/AcroForm entry and filter every page. -/
def flattenForm (d : DocState) : DocState :=
  { acroForm := none, pages := d.pages.map flattenPage }

/-- Analysis record, mirroring the dataclass FormAnalysisResult (the
xfa_data text is not modelled: the only consumer that could matter,
_sync_xfa_data, mutates a local copy and discards it). -/
structure FormAnalysisResult where
  formType : FormType
  fields : List (String × FormFieldInfo)
  hasXfa : Bool := false
  isEncrypted : Bool := false
  permissions : Permissions := defaultPermissions
  errors : List String := []
  warnings : List String := []
deriving DecidableEq, Repr

/-- Result record, mirroring the dataclass FillResult. -/
structure FillResult where
  success : Bool
  outputPath : Option String := none
  filledFields : List String := []
  failedFields : List String := []
  errors : List String := []
  warnings : List String := []
deriving DecidableEq, Repr

/-- Checkbox value conversion of _fill_fields: a bool maps to the
hardcoded pair /Yes and /Off; the listed string synonyms (exact
capitalizations only) map to the same hardcoded pair; any other value
passes through unchanged.  The appearance states of the field are never
consulted here. -/
def convertCheckboxValue (v : PyValue) : PyValue :=
  match v with
  | .bool b => .str (if b then "/Yes" else "/Off")
  | .str s =>
    if s = "true" || s = "True" || s = "1" || s = "yes" || s = "Yes" then .str "/Yes"
    else if s = "false" || s = "False" || s = "0" || s = "no" || s = "No" then .str "/Off"
    else .str s

/-- Writer state during a fill call: the document being built (pages
copied from the reader, /AcroForm cloned when present), the
/NeedAppearances flag of its form dictionary, and the values written so
far through the codec field-update primitive. -/
structure WriterState where
  doc : DocState
  needAppearances : Bool := false
  fieldWrites : List (String × PyValue) := []
deriving DecidableEq, Repr

/-- Embedding of _set_need_appearances: create an empty /AcroForm
dictionary when the writer root has none, then set its /NeedAppearances
entry to true. -/
def setNeedAppearancesFn (w : WriterState) : WriterState :=
  let doc := match w.doc.acroForm with
    | none => { w.doc with acroForm := some [] }
    | some _ => w.doc
  { w with doc := doc, needAppearances := true }

/-- Per-entry step of _fill_fields, iterating the caller value map in
caller order.  An unknown name or a readonly field is appended to the
failed list and the loop continues.  A checkbox value is converted by
convertCheckboxValue.  The codec write writer.update_page_form_field_values
indexes writer.pages with the field page index; an out-of-range index
raises inside the per-entry try and lands the name in the failed list
(the codec write itself is modelled as total on an in-range page).  The
update_appearances argument is passed to the codec as auto_regenerate and
does not change the modelled state. -/
def fillStep (analysisFields : List (String × FormFieldInfo))
    (st : WriterState × List String × List String) (kv : String × PyValue) :
    WriterState × List String × List String :=
  let w := st.1
  let filled := st.2.1
  let failed := st.2.2
  match lookupField analysisFields kv.1 with
  | none => (w, filled, failed ++ [kv.1])
  | some fi =>
    if fi.isReadonly then (w, filled, failed ++ [kv.1])
    else
      let v := if fi.fieldType = FieldType.checkbox then convertCheckboxValue kv.2 else kv.2
      if fi.pageIndex < w.doc.pages.length then
        ({ w with fieldWrites := listUpdate w.fieldWrites kv.1 v }, filled ++ [kv.1], failed)
      else
        (w, filled, failed ++ [kv.1])

/-- Embedding of _fill_fields: fold the caller value map over fillStep. -/
def fillFields (analysisFields : List (String × FormFieldInfo))
    (values : List (String × PyValue)) (w : WriterState) :
    WriterState × List String × List String :=
  values.foldl (fillStep analysisFields) (w, [], [])

/-- Serialized output file, wrapping the writer state whose object graph
was written. -/
structure SavedFile where
  content : WriterState
deriving DecidableEq, Repr

/-- Save step of fill: the incremental branch (taken when the mode is
incremental and the input path exists) opens the input file for reading
and then calls writer.write on the output exactly as the full-rewrite
branch does, so both branches serialize the entire writer object graph. -/
def saveOutput (saveMode : SaveMode) (inputExists : Bool) (w : WriterState) : SavedFile :=
  if saveMode = SaveMode.incremental && inputExists then { content := w }
  else { content := w }

/-- Option bundle of PDFFormFiller.fill. -/
structure FillOptions where
  saveMode : SaveMode := SaveMode.fullRewrite
  updateAppearances : Bool := true
  setNeedAppearances : Bool := true
  flatten : Bool := false
deriving DecidableEq, Repr

/-- Warning text appended when the analysis reports a dynamic XFA form. -/
def xfaDynamicWarning : String := "动态 XFA 表单可能无法正确填充，建议使用 Adobe Acrobat"

/-- Error text appended when the fill-forms permission is denied. -/
def permissionDeniedError : String := "PDF 文档禁止表单填充"

/-- Fresh writer of fill: pages copied from the reader, /AcroForm cloned
from the reader root when present. -/
def initialWriter (reader : DocState) : WriterState :=
  { doc := { acroForm := reader.acroForm, pages := reader.pages } }

/-- Writer state entering _fill_fields: the fresh writer, run through
_set_need_appearances when the option is set. -/
def fillWriterStart (reader : DocState) (opts : FillOptions) : WriterState :=
  if opts.setNeedAppearances then setNeedAppearancesFn (initialWriter reader)
  else initialWriter reader

/-- Warning list of a successful fill call: the dynamic-XFA caution of
fill, followed by the _sync_xfa_data failure warning when that path is
entered and its regex machinery (supplied as the oracle) raises. -/
def fillWarnings (analysis : FormAnalysisResult) (syncWarn : Option String) : List String :=
  (if analysis.formType = FormType.xfaDynamic then [xfaDynamicWarning] else []) ++
    (if analysis.hasXfa = true ∧ analysis.formType ≠ FormType.xfaDynamic then
      (match syncWarn with
        | some msg => [msg]
        | none => [])
    else [])

/-- Embedding of PDFFormFiller.fill, given the analysis in effect
(self.analysis, computed by analyze when absent), the loaded reader
document, the caller value map in caller order, and whether the input
path still exists on disk (the guard of the incremental branch).

The permission gate returns before a writer is constructed; the second
component of the result is the written output file, none when nothing was
written.  _sync_xfa_data mutates a local string and discards it; its only
observable effect is a warning appended when its regex machinery raises,
supplied here as the syncWarn oracle for the unmodelled regex engine (the
path is only entered when the analysis has XFA and the form type is not
dynamic XFA). -/
def fillModel (reader : DocState) (analysis : FormAnalysisResult)
    (values : List (String × PyValue)) (outputPath : String)
    (opts : FillOptions) (inputExists : Bool) (syncWarn : Option String) :
    FillResult × Option SavedFile :=
  if analysis.permissions.can_fill_forms = false then
    ({ success := false, errors := [permissionDeniedError] }, none)
  else
    let res := fillFields analysis.fields values (fillWriterStart reader opts)
    let w3 := if opts.flatten then { res.1 with doc := flattenForm res.1.doc } else res.1
    ({ success := true, outputPath := some outputPath,
       filledFields := res.2.1, failedFields := res.2.2,
       errors := [], warnings := fillWarnings analysis syncWarn },
     some (saveOutput opts.saveMode inputExists w3))

/-- String tag of a FormType, mirroring the .value attribute of the
source enum. -/
def formTypeValue : FormType → String
  | FormType.none => "none"
  | FormType.acroform => "acroform"
  | FormType.xfaStatic => "xfa_static"
  | FormType.xfaDynamic => "xfa_dynamic"
  | FormType.hybrid => "hybrid"

/-- String tag of a FieldType, mirroring the .value attribute of the
source enum. -/
def fieldTypeValue : FieldType → String
  | FieldType.text => "text"
  | FieldType.checkbox => "checkbox"
  | FieldType.radio => "radio"
  | FieldType.dropdown => "dropdown"
  | FieldType.listbox => "listbox"
  | FieldType.signature => "signature"
  | FieldType.button => "button"
  | FieldType.unknown => "unknown"

/-- Per-field summary dictionary built by form_handler.analyze_form. -/
structure FieldSummary where
  name : String
  type : String
  value : Option String
  isReadonly : Bool
  isRequired : Bool
deriving DecidableEq, Repr

/-- Result dictionary of form_handler.analyze_form.  The permissions dict
is modelled as an ordered key-to-bool list so the empty fallback dict is
representable. -/
structure AnalyzeFormDict where
  formType : String
  hasXfa : Bool
  isEncrypted : Bool
  permissions : List (String × Bool)
  fieldCount : Nat
  fields : List FieldSummary
  warnings : List String
  errors : List String
deriving DecidableEq, Repr

/-- Ordered key list of a Permissions record, in the construction order of
_check_permissions. -/
def permissionsToDict (p : Permissions) : List (String × Bool) :=
  [("can_modify", p.can_modify), ("can_fill_forms", p.can_fill_forms),
   ("can_extract", p.can_extract), ("can_print", p.can_print)]

/-- Embedding of form_handler.analyze_form.  The argument is the outcome
of the underlying analyze_pdf_form call: ok with the analysis, or error
with the string of the raised exception (PDFFormFiller raises ValueError
on an unreadable or corrupt file).  The except branch of the source
returns the fixed fallback dictionary with str(e) as the sole error. -/
def analyzeForm (r : Except String FormAnalysisResult) : AnalyzeFormDict :=
  match r with
  | Except.ok analysis =>
    { formType := formTypeValue analysis.formType
      hasXfa := analysis.hasXfa
      isEncrypted := analysis.isEncrypted
      permissions := permissionsToDict analysis.permissions
      fieldCount := analysis.fields.length
      fields := analysis.fields.map (fun p =>
        { name := p.1, type := fieldTypeValue p.2.fieldType, value := p.2.value,
          isReadonly := p.2.isReadonly, isRequired := p.2.isRequired })
      warnings := analysis.warnings
      errors := analysis.errors }
  | Except.error msg =>
    { formType := "none", hasXfa := false, isEncrypted := false,
      permissions := [], fieldCount := 0, fields := [],
      warnings := [], errors := [msg] }

/-- Names that _fill_fields sends to the failed list at lookup time:
absent from the analysis field map, or naming a readonly field. -/
def perFieldFailure (analysisFields : List (String × FormFieldInfo)) (name : String) : Prop :=
  lookupField analysisFields name = none ∨
    ∃ fi, lookupField analysisFields name = some fi ∧ fi.isReadonly = true

lemma lookupField_some_mem_keys {α : Type} {l : List (String × α)} {k : String} {v : α}
    (h : lookupField l k = some v) : k ∈ l.map Prod.fst := by
  induction l with
  | nil => simp [lookupField] at h
  | cons hd tl ih =>
    rw [lookupField] at h
    by_cases hk : hd.1 = k
    · simp [hk]
    · simp [hk] at h
      simp [ih h]

lemma fillStep_doc (analysisFields : List (String × FormFieldInfo))
    (st : WriterState × List String × List String) (kv : String × PyValue) :
    (fillStep analysisFields st kv).1.doc = st.1.doc := by
  rw [fillStep]
  rcases h : lookupField analysisFields kv.1 with _ | fi
  · rfl
  · by_cases hr : fi.isReadonly
    · simp [hr]
    · by_cases hp : fi.pageIndex < st.1.doc.pages.length
      · simp [hr, hp]
      · simp [hr, hp]

lemma fillStep_filled_mono (analysisFields : List (String × FormFieldInfo))
    (st : WriterState × List String × List String) (kv : String × PyValue)
    {n : String} (h : n ∈ st.2.1) : n ∈ (fillStep analysisFields st kv).2.1 := by
  rw [fillStep]
  rcases hl : lookupField analysisFields kv.1 with _ | fi
  · exact h
  · by_cases hr : fi.isReadonly
    · simp only [hr, if_true]
      exact h
    · by_cases hp : fi.pageIndex < st.1.doc.pages.length
      · simp only [hr, if_false, hp, if_true, Bool.false_eq_true]
        exact List.mem_append_left _ h
      · simp only [hr, if_false, hp, Bool.false_eq_true]
        exact h

lemma fillStep_failed_mono (analysisFields : List (String × FormFieldInfo))
    (st : WriterState × List String × List String) (kv : String × PyValue)
    {n : String} (h : n ∈ st.2.2) : n ∈ (fillStep analysisFields st kv).2.2 := by
  rw [fillStep]
  rcases hl : lookupField analysisFields kv.1 with _ | fi
  · exact List.mem_append_left _ h
  · by_cases hr : fi.isReadonly
    · simp only [hr, if_true]
      exact List.mem_append_left _ h
    · by_cases hp : fi.pageIndex < st.1.doc.pages.length
      · simp only [hr, if_false, hp, if_true, Bool.false_eq_true]
        exact h
      · simp only [hr, if_false, hp, Bool.false_eq_true]
        exact List.mem_append_left _ h

lemma fillStep_of_failure (analysisFields : List (String × FormFieldInfo))
    (st : WriterState × List String × List String) (kv : String × PyValue)
    (h : perFieldFailure analysisFields kv.1) :
    kv.1 ∈ (fillStep analysisFields st kv).2.2 := by
  rw [fillStep]
  rcases h with h | ⟨fi, hfi, hr⟩
  · rw [h]
    exact List.mem_append_right _ (List.mem_singleton.mpr rfl)
  · rw [hfi]
    simp only [hr, if_true]
    exact List.mem_append_right _ (List.mem_singleton.mpr rfl)

lemma fillStep_lands (analysisFields : List (String × FormFieldInfo))
    (st : WriterState × List String × List String) (kv : String × PyValue) :
    kv.1 ∈ (fillStep analysisFields st kv).2.1 ∨
      kv.1 ∈ (fillStep analysisFields st kv).2.2 := by
  rw [fillStep]
  rcases hl : lookupField analysisFields kv.1 with _ | fi
  · exact Or.inr (List.mem_append_right _ (List.mem_singleton.mpr rfl))
  · by_cases hr : fi.isReadonly
    · simp only [hr, if_true]
      exact Or.inr (List.mem_append_right _ (List.mem_singleton.mpr rfl))
    · by_cases hp : fi.pageIndex < st.1.doc.pages.length
      · simp only [hr, if_false, hp, if_true, Bool.false_eq_true]
        exact Or.inl (List.mem_append_right _ (List.mem_singleton.mpr rfl))
      · simp only [hr, if_false, hp, Bool.false_eq_true]
        exact Or.inr (List.mem_append_right _ (List.mem_singleton.mpr rfl))

lemma fillStep_of_writable (analysisFields : List (String × FormFieldInfo))
    (st : WriterState × List String × List String) (kv : String × PyValue)
    {fi : FormFieldInfo} (hfi : lookupField analysisFields kv.1 = some fi)
    (hr : fi.isReadonly = false) (hp : fi.pageIndex < st.1.doc.pages.length) :
    kv.1 ∈ (fillStep analysisFields st kv).2.1 := by
  rw [fillStep, hfi]
  simp only [hr, if_false, hp, if_true, Bool.false_eq_true]
  exact List.mem_append_right _ (List.mem_singleton.mpr rfl)

lemma foldl_fillStep_doc (analysisFields : List (String × FormFieldInfo))
    (values : List (String × PyValue)) (st : WriterState × List String × List String) :
    (values.foldl (fillStep analysisFields) st).1.doc = st.1.doc := by
  induction values generalizing st with
  | nil => rfl
  | cons kv rest ih =>
    rw [List.foldl_cons, ih, fillStep_doc]

lemma foldl_fillStep_filled_mono (analysisFields : List (String × FormFieldInfo))
    (values : List (String × PyValue)) (st : WriterState × List String × List String)
    {n : String} (h : n ∈ st.2.1) :
    n ∈ (values.foldl (fillStep analysisFields) st).2.1 := by
  induction values generalizing st with
  | nil => exact h
  | cons kv rest ih =>
    rw [List.foldl_cons]
    exact ih _ (fillStep_filled_mono _ _ _ h)

lemma foldl_fillStep_failed_mono (analysisFields : List (String × FormFieldInfo))
    (values : List (String × PyValue)) (st : WriterState × List String × List String)
    {n : String} (h : n ∈ st.2.2) :
    n ∈ (values.foldl (fillStep analysisFields) st).2.2 := by
  induction values generalizing st with
  | nil => exact h
  | cons kv rest ih =>
    rw [List.foldl_cons]
    exact ih _ (fillStep_failed_mono _ _ _ h)

lemma foldl_fillStep_failed_of_failure (analysisFields : List (String × FormFieldInfo))
    (values : List (String × PyValue)) (st : WriterState × List String × List String)
    {kv : String × PyValue} (hmem : kv ∈ values)
    (hbad : perFieldFailure analysisFields kv.1) :
    kv.1 ∈ (values.foldl (fillStep analysisFields) st).2.2 := by
  induction values generalizing st with
  | nil => cases hmem
  | cons hd rest ih =>
    rw [List.foldl_cons]
    rcases List.mem_cons.mp hmem with heq | htl
    · subst heq
      exact foldl_fillStep_failed_mono _ _ _ (fillStep_of_failure _ _ _ hbad)
    · exact ih _ htl

lemma foldl_fillStep_lands (analysisFields : List (String × FormFieldInfo))
    (values : List (String × PyValue)) (st : WriterState × List String × List String)
    {kv : String × PyValue} (hmem : kv ∈ values) :
    kv.1 ∈ (values.foldl (fillStep analysisFields) st).2.1 ∨
      kv.1 ∈ (values.foldl (fillStep analysisFields) st).2.2 := by
  induction values generalizing st with
  | nil => cases hmem
  | cons hd rest ih =>
    rw [List.foldl_cons]
    rcases List.mem_cons.mp hmem with heq | htl
    · subst heq
      rcases fillStep_lands analysisFields st kv with h | h
      · exact Or.inl (foldl_fillStep_filled_mono _ _ _ h)
      · exact Or.inr (foldl_fillStep_failed_mono _ _ _ h)
    · exact ih _ htl

lemma foldl_fillStep_filled_of_writable (analysisFields : List (String × FormFieldInfo))
    (values : List (String × PyValue)) (st : WriterState × List String × List String)
    {kv : String × PyValue} (hmem : kv ∈ values) {fi : FormFieldInfo}
    (hfi : lookupField analysisFields kv.1 = some fi)
    (hr : fi.isReadonly = false) (hp : fi.pageIndex < st.1.doc.pages.length) :
    kv.1 ∈ (values.foldl (fillStep analysisFields) st).2.1 := by
  induction values generalizing st with
  | nil => cases hmem
  | cons hd rest ih =>
    rw [List.foldl_cons]
    rcases List.mem_cons.mp hmem with heq | htl
    · subst heq
      exact foldl_fillStep_filled_mono _ _ _ (fillStep_of_writable _ _ _ hfi hr hp)
    · have hp2 : fi.pageIndex < (fillStep analysisFields st hd).1.doc.pages.length := by
        rw [fillStep_doc]
        exact hp
      exact ih _ htl hp2

lemma fillStep_filled_keys (analysisFields : List (String × FormFieldInfo))
    (st : WriterState × List String × List String) (kv : String × PyValue)
    (hst : ∀ n ∈ st.2.1, n ∈ analysisFields.map Prod.fst) :
    ∀ n ∈ (fillStep analysisFields st kv).2.1, n ∈ analysisFields.map Prod.fst := by
  intro n hn
  rw [fillStep] at hn
  rcases hl : lookupField analysisFields kv.1 with _ | fi
  · rw [hl] at hn
    exact hst n hn
  · rw [hl] at hn
    by_cases hr : fi.isReadonly
    · simp only [hr, if_true] at hn
      exact hst n hn
    · by_cases hp : fi.pageIndex < st.1.doc.pages.length
      · simp only [hr, if_false, hp, if_true, Bool.false_eq_true] at hn
        rcases List.mem_append.mp hn with h | h
        · exact hst n h
        · rw [List.mem_singleton.mp h]
          exact lookupField_some_mem_keys hl
      · simp only [hr, if_false, hp, Bool.false_eq_true] at hn
        exact hst n hn

lemma foldl_fillStep_filled_keys (analysisFields : List (String × FormFieldInfo))
    (values : List (String × PyValue)) (st : WriterState × List String × List String)
    (hst : ∀ n ∈ st.2.1, n ∈ analysisFields.map Prod.fst) :
    ∀ n ∈ (values.foldl (fillStep analysisFields) st).2.1,
      n ∈ analysisFields.map Prod.fst := by
  induction values generalizing st with
  | nil => exact hst
  | cons hd rest ih =>
    rw [List.foldl_cons]
    exact ih _ (fillStep_filled_keys _ _ _ hst)

lemma flattenPage_no_widget (pg : Page) (l : List AnnotDict)
    (h : (flattenPage pg).annots = some l) :
    ∀ a ∈ l, a.subtype ≠ some "/Widget" := by
  intro a ha
  rw [flattenPage] at h
  rcases hpg : pg.annots with _ | l0
  · rw [hpg] at h
    simp only [hpg] at h
    cases h
  · rw [hpg] at h
    by_cases he : (l0.filter (fun x => x.subtype != some "/Widget")).isEmpty
    · simp only [he, if_true] at h
      cases h
    · simp only [he, if_false, Bool.false_eq_true] at h
      have hl : l = l0.filter (fun x => x.subtype != some "/Widget") :=
        (Option.some_injective _ h).symm
      subst hl
      have := List.of_mem_filter ha
      exact bne_iff_ne.mp this

lemma processAnnot_not_widget (fields : List (String × FormFieldInfo)) (pageIdx : Nat)
    (a : AnnotDict) (h : a.subtype ≠ some "/Widget") :
    processAnnot fields pageIdx a = fields := by
  rw [processAnnot]
  simp [h]

lemma foldl_processAnnot_not_widget (pageIdx : Nat) (l : List AnnotDict)
    (h : ∀ a ∈ l, a.subtype ≠ some "/Widget")
    (fields : List (String × FormFieldInfo)) :
    l.foldl (fun acc an => processAnnot acc pageIdx an) fields = fields := by
  induction l generalizing fields with
  | nil => rfl
  | cons hd tl ih =>
    rw [List.foldl_cons, processAnnot_not_widget _ _ _ (h hd (List.mem_cons_self hd tl))]
    exact ih (fun a ha => h a (List.mem_cons_of_mem hd ha)) fields

lemma extractPass2_no_widget (pages : List Page)
    (h : ∀ pg ∈ pages, ∀ l, pg.annots = some l → ∀ a ∈ l, a.subtype ≠ some "/Widget")
    (fields : List (String × FormFieldInfo)) (pageIdx : Nat) :
    extractPass2 fields pageIdx pages = fields := by
  induction pages generalizing fields pageIdx with
  | nil => rfl
  | cons pg rest ih =>
    rw [extractPass2]
    rcases hpg : pg.annots with _ | l
    · exact ih (fun q hq => h q (List.mem_cons_of_mem pg hq)) fields (pageIdx + 1)
    · show extractPass2 (List.foldl (fun acc an => processAnnot acc pageIdx an) fields l)
        (pageIdx + 1) rest = fields
      rw [foldl_processAnnot_not_widget _ _ (h pg (List.mem_cons_self pg rest) l hpg)]
      exact ih (fun q hq => h q (List.mem_cons_of_mem pg hq)) fields (pageIdx + 1)

lemma extractFields_flattenForm (d : DocState) :
    extractFields (flattenForm d) = [] := by
  rw [extractFields]
  have hAcro : (flattenForm d).acroForm = none := rfl
  rw [hAcro]
  apply extractPass2_no_widget
  intro pg hpg l hl
  rcases List.mem_map.mp hpg with ⟨pg0, _, hmap⟩
  exact flattenPage_no_widget pg0 l (hmap ▸ hl)

lemma flattenPage_preserves (pg : Page) (l0 : List AnnotDict)
    (hpg : pg.annots = some l0) (a : AnnotDict) (ha : a ∈ l0)
    (hw : a.subtype ≠ some "/Widget") :
    ∃ l, (flattenPage pg).annots = some l ∧ a ∈ l := by
  rw [flattenPage, hpg]
  have hmem : a ∈ l0.filter (fun x => x.subtype != some "/Widget") :=
    List.mem_filter.mpr ⟨ha, bne_iff_ne.mpr hw⟩
  have hne : ¬(l0.filter (fun x => x.subtype != some "/Widget")).isEmpty := by
    intro hempty
    rw [List.isEmpty_iff] at hempty
    rw [hempty] at hmem
    cases hmem
  refine ⟨l0.filter (fun x => x.subtype != some "/Widget"), ?_, hmem⟩
  simp [hne]

lemma flattenPage_all_widget (pg : Page) (l0 : List AnnotDict)
    (hpg : pg.annots = some l0)
    (hw : ∀ a ∈ l0, a.subtype = some "/Widget") :
    (flattenPage pg).annots = none := by
  rw [flattenPage, hpg]
  have hempty : l0.filter (fun x => x.subtype != some "/Widget") = [] := by
    apply List.filter_eq_nil_iff.mpr
    intro a ha
    rw [hw a ha]
    simp
  simp [hempty]

lemma setNeedAppearancesFn_fieldWrites (w : WriterState) :
    (setNeedAppearancesFn w).fieldWrites = w.fieldWrites := rfl

lemma setNeedAppearancesFn_pages (w : WriterState) :
    (setNeedAppearancesFn w).doc.pages = w.doc.pages := by
  rw [setNeedAppearancesFn]
  cases h : w.doc.acroForm <;> simp [h]

lemma fillWriterStart_pages (reader : DocState) (opts : FillOptions) :
    (fillWriterStart reader opts).doc.pages = reader.pages := by
  rw [fillWriterStart]
  split
  · rw [setNeedAppearancesFn_pages]
    rfl
  · rfl

lemma fillWriterStart_fieldWrites (reader : DocState) (opts : FillOptions) :
    (fillWriterStart reader opts).fieldWrites = [] := by
  rw [fillWriterStart]
  split
  · rw [setNeedAppearancesFn_fieldWrites]
    rfl
  · rfl

lemma saveOutput_serializes_all (saveMode : SaveMode) (inputExists : Bool) (w : WriterState) :
    saveOutput saveMode inputExists w = { content := w } := by
  rw [saveOutput]
  split <;> rfl

lemma fillModel_allowed (reader : DocState) (analysis : FormAnalysisResult)
    (values : List (String × PyValue)) (outputPath : String)
    (opts : FillOptions) (inputExists : Bool) (syncWarn : Option String)
    (hperm : analysis.permissions.can_fill_forms = true) :
    (fillModel reader analysis values outputPath opts inputExists syncWarn).1 =
      { success := true, outputPath := some outputPath,
        filledFields := (fillFields analysis.fields values (fillWriterStart reader opts)).2.1,
        failedFields := (fillFields analysis.fields values (fillWriterStart reader opts)).2.2,
        errors := [], warnings := fillWarnings analysis syncWarn } := by
  have h : ¬(analysis.permissions.can_fill_forms = false) := by simp [hperm]
  rw [fillModel, if_neg h]

lemma fillModel_fieldWrites (reader : DocState) (analysis : FormAnalysisResult)
    (values : List (String × PyValue)) (outputPath : String)
    (opts : FillOptions) (inputExists : Bool) (syncWarn : Option String)
    (hperm : analysis.permissions.can_fill_forms = true) :
    ((fillModel reader analysis values outputPath opts inputExists syncWarn).2).map
        (fun sf => sf.content.fieldWrites) =
      some (fillFields analysis.fields values (fillWriterStart reader opts)).1.fieldWrites := by
  have h : ¬(analysis.permissions.can_fill_forms = false) := by simp [hperm]
  rw [fillModel, if_neg h]
  simp only [Option.map_some]
  rw [saveOutput_serializes_all]
  split <;> rfl

/-- Sample document with no form data at all: no /AcroForm and one page
without annotations. -/
def docNoFields : DocState := { acroForm := none, pages := [{ annots := none }] }

/-- Analysis of the empty sample, as analyze would produce it. -/
def analysisNoFields : FormAnalysisResult :=
  { formType := FormType.none, fields := extractFields docNoFields }

/-- Analysis whose permission probe denied form filling. -/
def analysisDenied : FormAnalysisResult :=
  { formType := FormType.none, fields := [],
    permissions := { defaultPermissions with can_fill_forms := false } }

/-- Checkbox field dictionary whose only on appearance state is named
Selected (keys of /AP /N). -/
def cbFieldDict : AnnotDict := { ft := some "/Btn", apNStates := ["Selected", "/Off"] }

/-- Sample document containing the Selected-state checkbox as field cb. -/
def docCheckbox : DocState :=
  { acroForm := some [("cb", cbFieldDict)], pages := [{ annots := none }] }

/-- Analysis of the checkbox sample, as analyze would produce it. -/
def analysisCheckbox : FormAnalysisResult :=
  { formType := FormType.acroform, fields := extractFields docCheckbox }

/-- Text field dictionary with /MaxLen 2. -/
def textFieldDict : AnnotDict := { ft := some "/Tx", maxLen := some 2 }

/-- Sample document containing the bounded text field as field t. -/
def docText : DocState :=
  { acroForm := some [("t", textFieldDict)], pages := [{ annots := none }] }

/-- Analysis of the text sample, as analyze would produce it. -/
def analysisText : FormAnalysisResult :=
  { formType := FormType.acroform, fields := extractFields docText }

/-- Widget annotation of field w1 used by the flatten sample. -/
def widgetAnnotSample : AnnotDict :=
  { subtype := some "/Widget", nameNode := FieldNode.leaf (some "w1"),
    ft := some "/Tx", rect := some (0, 0, 100, 20) }

/-- Non-widget (link) annotation used by the flatten sample. -/
def linkAnnotSample : AnnotDict := { subtype := some "/Link" }

/-- Sample document for flattening: one page mixing a widget with a link,
one page with only a widget. -/
def docFlattenSample : DocState :=
  { acroForm := some [("w1", widgetAnnotSample)],
    pages := [{ annots := some [widgetAnnotSample, linkAnnotSample] },
              { annots := some [widgetAnnotSample] }] }

/-- C7 counterexample: a widget with its own /T entry child under a parent
chain whose resolved name is parent resolves to the bare local name child,
not to the dot-joined qualified name parent.child claimed by the spec. -/
theorem widget_name_not_qualified_cex :
    getFieldName (FieldNode.node (some "child") (FieldNode.leaf (some "parent"))) =
        some "child" ∧
    (some "child" : Option String) ≠ some "parent.child" := by
  exact ⟨rfl, by decide⟩

/-- C7 amended: _get_field_name returns exactly the own /T entry of the
widget: a widget with its own /T resolves to that local name alone (the
parent chain is never consulted, because the dot-joining branch re-tests
the /T key it just found absent and is therefore unreachable), and a
widget without its own /T resolves to nothing — it is dropped — regardless
of any parent chain. -/
theorem widget_name_resolution_is_own_t (n : FieldNode) : getFieldName n = n.ownT := by
  cases n with
  | leaf t => cases t <;> rfl
  | node t parent =>
    cases t with
    | some s => rfl
    | none =>
      cases h : getFieldName parent <;> simp [getFieldName, FieldNode.ownT, h]

/-- C8: on an unencrypted reader the permission probe yields all four
capabilities true; on an encrypted reader with a readable protection
integer P it decodes print from bit mask 4, modify from 8, extract from 16
and fill-forms from 256; and a missing or malformed /Encrypt//P falls back
to the all-true default without raising. -/
theorem permission_decoder_correct (r : ReaderCrypt) :
    (r.isEncrypted = false → checkPermissions r = defaultPermissions) ∧
    (∀ p : Int, r.isEncrypted = true → r.encryptP = some (some p) →
      checkPermissions r =
        { can_modify := Int.land p 8 != 0, can_fill_forms := Int.land p 256 != 0,
          can_extract := Int.land p 16 != 0, can_print := Int.land p 4 != 0 }) ∧
    ((r.encryptP = none ∨ r.encryptP = some none) →
      checkPermissions r = defaultPermissions) := by
  refine ⟨?_, ?_, ?_⟩
  · intro h
    simp [checkPermissions, h]
  · intro p henc hp
    simp [checkPermissions, henc, hp]
  · intro h
    rcases henc : r.isEncrypted with _ | _
    · simp [checkPermissions, henc]
    · rcases h with h | h <;> simp [checkPermissions, henc, h]

/-- Closed instance of the C8 theorem at an encrypted reader with P = 4:
only printing is allowed. -/
theorem permission_decoder_correct_witness :
    checkPermissions { isEncrypted := true, encryptP := some (some 4) } =
      { can_modify := false, can_fill_forms := false,
        can_extract := false, can_print := true } := by
  have h := (permission_decoder_correct
    { isEncrypted := true, encryptP := some (some 4) }).2.1 4 rfl rfl
  rw [h]
  decide

/-- C9: with identical remaining arguments, a fill call in incremental
save mode returns exactly the same result and writes exactly the same
output content as a fill call in full-rewrite save mode: the incremental
branch of the source also serializes the entire writer object graph. -/
theorem incremental_save_equals_full_rewrite (reader : DocState)
    (analysis : FormAnalysisResult) (values : List (String × PyValue))
    (outputPath : String) (u s f : Bool) (inputExists : Bool)
    (syncWarn : Option String) :
    fillModel reader analysis values outputPath
        { saveMode := SaveMode.incremental, updateAppearances := u,
          setNeedAppearances := s, flatten := f } inputExists syncWarn =
      fillModel reader analysis values outputPath
        { saveMode := SaveMode.fullRewrite, updateAppearances := u,
          setNeedAppearances := s, flatten := f } inputExists syncWarn := by
  have hw : fillWriterStart reader
      { saveMode := SaveMode.incremental, updateAppearances := u,
        setNeedAppearances := s, flatten := f } =
      fillWriterStart reader
      { saveMode := SaveMode.fullRewrite, updateAppearances := u,
        setNeedAppearances := s, flatten := f } := by
    rw [fillWriterStart, fillWriterStart]
  rw [fillModel, fillModel]
  split
  · rfl
  · simp only [saveOutput_serializes_all, hw]

/-- C10: the analyze_form wrapper is total over the outcome of the
underlying analysis; when the underlying analyze_pdf_form raises, the
wrapper returns the fixed fallback dictionary: formType none, hasXfa
false, fieldCount 0, empty fields and warnings, and the message of the
exception as the sole error entry. -/
theorem analyze_form_error_fallback (msg : String) :
    analyzeForm (Except.error msg) =
      { formType := "none", hasXfa := false, isEncrypted := false,
        permissions := [], fieldCount := 0, fields := [], warnings := [],
        errors := [msg] } := rfl

/-- C2: when the analysis in effect reports the fill-forms capability
false, the whole fill call fails before any writer is constructed: the
result is success false with the permission error as the only error, no
field name recorded, and no output file written; and a protection bitmask
with bit mask 256 clear decodes to a false fill-forms capability. -/
theorem fill_permission_denied_gate (reader : DocState)
    (analysis : FormAnalysisResult) (values : List (String × PyValue))
    (outputPath : String) (opts : FillOptions) (inputExists : Bool)
    (syncWarn : Option String)
    (hperm : analysis.permissions.can_fill_forms = false) :
    fillModel reader analysis values outputPath opts inputExists syncWarn =
      ({ success := false, outputPath := none, filledFields := [],
         failedFields := [], errors := [permissionDeniedError],
         warnings := [] }, none) ∧
    (∀ p : Int, Int.land p 256 = 0 →
      (checkPermissions { isEncrypted := true, encryptP := some (some p) }).can_fill_forms
        = false) := by
  constructor
  · rw [fillModel, if_pos hperm]
  · intro p hp
    simp [checkPermissions, hp]

/-- Closed instance of the C2 theorem: a concrete denied fill writes
nothing, and P = 0 decodes to a denied fill-forms capability. -/
theorem fill_permission_denied_gate_witness :
    fillModel docNoFields analysisDenied [("a", PyValue.str "x")] "out.pdf"
        {} true none =
      ({ success := false, outputPath := none, filledFields := [],
         failedFields := [], errors := [permissionDeniedError],
         warnings := [] }, none) ∧
    (checkPermissions { isEncrypted := true, encryptP := some (some 0) }).can_fill_forms
      = false := by
  have h := fill_permission_denied_gate docNoFields analysisDenied
    [("a", PyValue.str "x")] "out.pdf" {} true none rfl
  exact ⟨h.1, h.2 0 rfl⟩

/-- C1: under a granted fill-forms permission, per-field errors never
abort the batch: every caller entry whose name is absent from the analysis
field map or names a readonly field lands in failedFields, every caller
entry lands in filledFields or failedFields (the loop continues past
failures), every writable entry lands in filledFields, and the call
returns success true; in particular filling only the unknown name
unknownField against a document without that field returns
failedFields = [unknownField], filledFields = [] and success = true. -/
theorem fill_per_field_errors_never_abort (reader : DocState)
    (analysis : FormAnalysisResult) (values : List (String × PyValue))
    (outputPath : String) (opts : FillOptions) (inputExists : Bool)
    (syncWarn : Option String)
    (hperm : analysis.permissions.can_fill_forms = true) :
    (∀ kv ∈ values, perFieldFailure analysis.fields kv.1 →
      kv.1 ∈ (fillModel reader analysis values outputPath opts inputExists
        syncWarn).1.failedFields) ∧
    (∀ kv ∈ values,
      kv.1 ∈ (fillModel reader analysis values outputPath opts inputExists
        syncWarn).1.filledFields ∨
      kv.1 ∈ (fillModel reader analysis values outputPath opts inputExists
        syncWarn).1.failedFields) ∧
    (∀ kv ∈ values, ∀ fi : FormFieldInfo,
      lookupField analysis.fields kv.1 = some fi → fi.isReadonly = false →
      fi.pageIndex < reader.pages.length →
      kv.1 ∈ (fillModel reader analysis values outputPath opts inputExists
        syncWarn).1.filledFields) ∧
    (fillModel reader analysis values outputPath opts inputExists
      syncWarn).1.success = true ∧
    (fillModel docNoFields analysisNoFields [("unknownField", PyValue.str "x")]
        "out.pdf" {} true none).1 =
      { success := true, outputPath := some "out.pdf", filledFields := [],
        failedFields := ["unknownField"], errors := [], warnings := [] } := by
  rw [fillModel_allowed reader analysis values outputPath opts inputExists syncWarn hperm]
  refine ⟨?_, ?_, ?_, rfl, rfl⟩
  · intro kv hmem hbad
    rw [fillFields]
    exact foldl_fillStep_failed_of_failure analysis.fields values _ hmem hbad
  · intro kv hmem
    rw [fillFields]
    exact foldl_fillStep_lands analysis.fields values _ hmem
  · intro kv hmem fi hfi hro hpage
    rw [fillFields]
    refine foldl_fillStep_filled_of_writable analysis.fields values _ hmem hfi hro ?_
    show fi.pageIndex < (fillWriterStart reader opts).doc.pages.length
    rw [fillWriterStart_pages]
    exact hpage

/-- Closed instance of the C1 theorem: the unknown-name scenario of the
spec, derived by applying the theorem at the concrete sample. -/
theorem fill_per_field_errors_never_abort_witness :
    "unknownField" ∈ (fillModel docNoFields analysisNoFields
        [("unknownField", PyValue.str "x")] "out.pdf" {} true
        none).1.failedFields ∧
    (fillModel docNoFields analysisNoFields [("unknownField", PyValue.str "x")]
        "out.pdf" {} true none).1.success = true := by
  have h := fill_per_field_errors_never_abort docNoFields analysisNoFields
    [("unknownField", PyValue.str "x")] "out.pdf" {} true none rfl
  refine ⟨?_, h.2.2.2.1⟩
  refine h.1 ("unknownField", PyValue.str "x") (by simp) ?_
  exact Or.inl rfl

/-- C6 counterexample: the name of a failed entry need not be a key of the
analysis field map — filling the unknown name unknownField puts that very
name into failedFields although the analysis used for the fill has no such
key, refuting the claimed invariant for failedFields. -/
theorem failed_fields_can_carry_unknown_names_cex :
    "unknownField" ∈ (fillModel docNoFields analysisNoFields
        [("unknownField", PyValue.str "x")] "out.pdf" {} true
        none).1.failedFields ∧
    "unknownField" ∉ analysisNoFields.fields.map Prod.fst := by
  constructor
  · show "unknownField" ∈ ["unknownField"]
    simp
  · intro h
    simp [analysisNoFields, extractFields, docNoFields, extractPass2] at h

/-- C6 amended: only the filledFields half of the invariant holds — every
name appearing in filledFields is a key that existed in the field map of
the analysis used for that fill, while failedFields may also carry
caller-supplied names absent from that map (that absence being the very
reason they failed). -/
theorem filled_fields_subset_of_analysis_keys (reader : DocState)
    (analysis : FormAnalysisResult) (values : List (String × PyValue))
    (outputPath : String) (opts : FillOptions) (inputExists : Bool)
    (syncWarn : Option String)
    (hperm : analysis.permissions.can_fill_forms = true) :
    ∀ n ∈ (fillModel reader analysis values outputPath opts inputExists
        syncWarn).1.filledFields,
      n ∈ analysis.fields.map Prod.fst := by
  rw [fillModel_allowed reader analysis values outputPath opts inputExists syncWarn hperm]
  intro n hn
  rw [fillFields] at hn
  exact foldl_fillStep_filled_keys analysis.fields values _ (by intro m hm; cases hm) n hn

/-- Closed instance of the C6 amended theorem: the one filled name of a
concrete successful fill is a key of the analysis used for it. -/
theorem filled_fields_subset_of_analysis_keys_witness :
    "t" ∈ analysisText.fields.map Prod.fst := by
  refine filled_fields_subset_of_analysis_keys docText analysisText
    [("t", PyValue.str "ab")] "out.pdf" {} true none rfl "t" ?_
  show "t" ∈ (fillModel docText analysisText [("t", PyValue.str "ab")]
    "out.pdf" {} true none).1.filledFields
  decide

lemma fillStep_writes (analysisFields : List (String × FormFieldInfo))
    (st : WriterState × List String × List String) (kv : String × PyValue)
    {fi : FormFieldInfo} (hfi : lookupField analysisFields kv.1 = some fi)
    (hro : fi.isReadonly = false) (hcb : fi.fieldType ≠ FieldType.checkbox)
    (hpage : fi.pageIndex < st.1.doc.pages.length) :
    fillStep analysisFields st kv =
      ({ st.1 with fieldWrites := listUpdate st.1.fieldWrites kv.1 kv.2 },
       st.2.1 ++ [kv.1], st.2.2) := by
  rw [fillStep, hfi]
  simp [hro, hcb, hpage]

/-- C3 evaluated at the failing input: the checkbox whose only available
on appearance state is Selected is filled with boolean true, yet the value
written through the codec is the hardcoded name /Yes — the appearance
states recorded in the field dictionary are never consulted by
_fill_fields, and no warning is recorded either. -/
theorem checkbox_fill_stores_hardcoded_state :
    cbFieldDict.apNStates = ["Selected", "/Off"] ∧
    (lookupField analysisCheckbox.fields "cb").map FormFieldInfo.fieldType =
      some FieldType.checkbox ∧
    ((fillModel docCheckbox analysisCheckbox [("cb", PyValue.bool true)]
        "out.pdf" {} true none).2).map (fun sf => sf.content.fieldWrites) =
      some [("cb", PyValue.str "/Yes")] ∧
    ("/Yes" : String) ≠ "Selected" ∧
    (fillModel docCheckbox analysisCheckbox [("cb", PyValue.bool true)]
        "out.pdf" {} true none).1.warnings = [] := by
  refine ⟨rfl, rfl, ?_, by decide, rfl⟩
  decide

/-- C4 counterexample: the text field t has maxLength 2, yet filling it
with the three-character value abc writes the full value abc, emits no
warning, and reports the field as filled — no truncation happens
anywhere in _fill_fields. -/
theorem text_maxlength_not_truncated_cex :
    (lookupField analysisText.fields "t").map FormFieldInfo.maxLength =
      some (some 2) ∧
    ((fillModel docText analysisText [("t", PyValue.str "abc")] "out.pdf"
        {} true none).2).map (fun sf => sf.content.fieldWrites) =
      some [("t", PyValue.str "abc")] ∧
    ("abc" : String).length = 3 ∧
    (fillModel docText analysisText [("t", PyValue.str "abc")] "out.pdf"
        {} true none).1.warnings = [] ∧
    (fillModel docText analysisText [("t", PyValue.str "abc")] "out.pdf"
        {} true none).1.filledFields = ["t"] := by
  refine ⟨rfl, ?_, rfl, rfl, ?_⟩ <;> decide

/-- C4 amended: a text-field value longer than the declared maxLength is
written unchanged, at full length, and the fill result carries no warning
about it — the extracted maxLength is never consulted during filling. -/
theorem text_value_written_full_length (reader : DocState)
    (analysis : FormAnalysisResult) (fieldName : String) (s : String)
    (fi : FormFieldInfo) (m : Int) (outputPath : String) (opts : FillOptions)
    (inputExists : Bool)
    (hperm : analysis.permissions.can_fill_forms = true)
    (hfi : lookupField analysis.fields fieldName = some fi)
    (htext : fi.fieldType = FieldType.text)
    (hro : fi.isReadonly = false)
    (hpage : fi.pageIndex < reader.pages.length)
    (hmax : fi.maxLength = some m)
    (hlen : m < (s.length : Int))
    (hxfa : analysis.hasXfa = false)
    (hdyn : analysis.formType ≠ FormType.xfaDynamic) :
    ((fillModel reader analysis [(fieldName, PyValue.str s)] outputPath opts
        inputExists none).2).map (fun sf => sf.content.fieldWrites) =
      some [(fieldName, PyValue.str s)] ∧
    (fillModel reader analysis [(fieldName, PyValue.str s)] outputPath opts
        inputExists none).1.warnings = [] := by
  constructor
  · rw [fillModel_fieldWrites reader analysis [(fieldName, PyValue.str s)]
      outputPath opts inputExists none hperm]
    rw [fillFields]
    simp only [List.foldl_cons, List.foldl_nil]
    rw [fillStep_writes analysis.fields _ _ hfi hro
      (by rw [htext]; decide)
      (by rw [fillWriterStart_pages]; exact hpage)]
    rw [fillWriterStart_fieldWrites]
    rfl
  · rw [fillModel_allowed reader analysis [(fieldName, PyValue.str s)]
      outputPath opts inputExists none hperm]
    show fillWarnings analysis none = []
    rw [fillWarnings]
    simp [hdyn, hxfa]

/-- Closed instance of the C4 amended theorem at the bounded text field
sample. -/
theorem text_value_written_full_length_witness :
    ((fillModel docText analysisText [("t", PyValue.str "abc")] "out.pdf"
        {} true none).2).map (fun sf => sf.content.fieldWrites) =
      some [("t", PyValue.str "abc")] ∧
    (fillModel docText analysisText [("t", PyValue.str "abc")] "out.pdf"
        {} true none).1.warnings = [] := by
  refine text_value_written_full_length docText analysisText "t" "abc"
    (parseField "t" textFieldDict) 2 "out.pdf" {} true rfl rfl rfl rfl
    (by decide) rfl (by decide) rfl (by decide)

/-- C5: flattening removes the document-level form dictionary and every
widget-subtype annotation from every page, preserves each non-widget
annotation of every page, removes the annotations key of a page whose
filtered list becomes empty, and re-extracting fields from the flattened
document yields the empty field map, so re-analysis reports fieldCount
zero. -/
theorem flatten_removes_interactivity (d : DocState) :
    (flattenForm d).acroForm = none ∧
    (∀ pg ∈ (flattenForm d).pages, ∀ l, pg.annots = some l →
      ∀ a ∈ l, a.subtype ≠ some "/Widget") ∧
    (∀ pg ∈ d.pages, ∀ l0, pg.annots = some l0 →
      (∀ a ∈ l0, a.subtype ≠ some "/Widget" →
        ∃ l, (flattenPage pg).annots = some l ∧ a ∈ l) ∧
      ((∀ a ∈ l0, a.subtype = some "/Widget") →
        (flattenPage pg).annots = none)) ∧
    extractFields (flattenForm d) = [] ∧
    (∀ a : FormAnalysisResult, a.fields = extractFields (flattenForm d) →
      (analyzeForm (Except.ok a)).fieldCount = 0) := by
  refine ⟨rfl, ?_, ?_, extractFields_flattenForm d, ?_⟩
  · intro pg hpg l hl
    rcases List.mem_map.mp hpg with ⟨pg0, _, hmap⟩
    exact flattenPage_no_widget pg0 l (hmap ▸ hl)
  · intro pg _ l0 h0
    exact ⟨fun a ha hw => flattenPage_preserves pg l0 h0 a ha hw,
           fun hw => flattenPage_all_widget pg l0 h0 hw⟩
  · intro a ha
    show a.fields.length = 0
    rw [ha, extractFields_flattenForm d]
    rfl

/-- Closed instance of the C5 theorem at the two-page sample: the field
map of the flattened document is empty, the link annotation of the first
page survives, and the widget-only second page loses its annotations
key. -/
theorem flatten_removes_interactivity_witness :
    extractFields (flattenForm docFlattenSample) = [] ∧
    (∃ l, (flattenPage { annots := some [widgetAnnotSample, linkAnnotSample] }).annots
        = some l ∧ linkAnnotSample ∈ l) ∧
    (flattenPage { annots := some [widgetAnnotSample] }).annots = none := by
  have h := flatten_removes_interactivity docFlattenSample
  refine ⟨h.2.2.2.1, ?_, ?_⟩
  · refine (h.2.2.1 { annots := some [widgetAnnotSample, linkAnnotSample] }
      (by simp [docFlattenSample]) [widgetAnnotSample, linkAnnotSample] rfl).1
      linkAnnotSample (by simp) (by decide)
  · refine (h.2.2.1 { annots := some [widgetAnnotSample] }
      (by simp [docFlattenSample]) [widgetAnnotSample] rfl).2 ?_
    intro a ha
    rw [List.mem_singleton.mp ha]
    rfl
